import Mathlib

set_option maxRecDepth 8000

/-!
Shallow embedding of the dynamic storage allocator in src/mm.c (segregated
free-list malloc with boundary tags).

Modelling conventions:
* The machine is 32-bit, matching the source (pointers are stored through
  4-byte words, `WSIZE = 4`).  Byte addresses are `Int` so that the address
  arithmetic of the C macros (e.g. `HDRP(bp) = bp - WSIZE`) is exact even at
  the null pointer.  Word values are `Nat` kept below `2^32`; every store
  masks with `% 2^32` and `size_t` arithmetic is performed with explicit
  `% 2^32` where the C code can wrap.
* Memory is a partial map `Int → Option Nat` holding one 32-bit word per byte
  address; the allocator only ever accesses 4-aligned addresses, so this is a
  faithful word-granular image of the C heap.  A read of an unmapped address
  makes the whole computation return `none` (the C behaviour is undefined
  there).  All loops that chase in-heap pointers take explicit fuel; running
  out of fuel also yields `none`.
* `C & ~0x7` on a 32-bit word `w < 2^32` equals `w - w % 8`, and `w & 0x1`
  equals `w % 2`; the embedding uses the arithmetic forms so that `omega`
  can reason about them directly.
* The region provider `mem_sbrk` is modelled by a break pointer `brk` and a
  growth limit `hi`; it returns the C failure sentinel `-1` when the request
  would exceed the limit, exactly like the `(long)bp == -1` test in mm.c.
* The compile-time flag `runheaptest` is 0 in the source, so the checker call
  at the end of `mm_free` is dead code and `mm_free` is embedded without it.
-/

/-- A 32-bit machine word (kept `< 2^32` by every store). -/
abbrev Word := Nat

/-- `2^32`, the wrap-around modulus of the 32-bit `size_t` / `unsigned int`
arithmetic in mm.c. -/
def W32 : Nat := 4294967296

/-- The allocator state: the word-granular heap image, the current program
break and the provider's growth limit, plus the two globals of mm.c
(`freelist_p`, the base of the 12 segregated-list head slots, and
`heap_listp`, the payload pointer of the prologue block). -/
structure Heap where
  mem : Int → Option Word
  brk : Int
  hi : Int
  freelist_p : Int
  heap_listp : Int

/-- `GET(p)`: read the 32-bit word at address `p` (mm.c line 49). -/
def GET (h : Heap) (a : Int) : Option Word := (h.mem a).map (fun w => w % W32)

/-- `PUT(p, val)`: store a 32-bit word at address `p` (mm.c line 48). -/
def PUT (h : Heap) (a : Int) (v : Word) : Heap :=
  { h with mem := fun x => if x = a then some (v % W32) else h.mem x }

/-- Store a pointer value as a 32-bit word (`PUT_PTR` / the pointer stores
through `GET_NPTR`/`GET_PPTR`/`GETfreelistp` on the 32-bit target). -/
def PUTPTR (h : Heap) (a : Int) (p : Int) : Heap := PUT h a p.toNat

/-- Read a stored pointer back as an address (null is the word 0). -/
def readPtr (h : Heap) (a : Int) : Option Int := (GET h a).map (fun w => (w : Int))

/-- `GET_SIZE(p) = GET(p) & ~0x7`: on a 32-bit word this clears the low
three bits, i.e. subtracts `w % 8`. -/
def GET_SIZE (w : Word) : Nat := w - w % 8

/-- `GET_ALLOC(p) = GET(p) & 0x1`, i.e. `w % 2`. -/
def GET_ALLOC (w : Word) : Nat := w % 2

/-- `PACK(size, alloc) = (size) | (alloc)` (mm.c line 62). -/
def PACK (size alloc : Nat) : Nat := size ||| alloc

/-- `ALIGN(size) = ((size) + 7) & ~0x7` in 32-bit `size_t` arithmetic. -/
def ALIGN (s : Nat) : Nat := (s + 7) % W32 - ((s + 7) % W32) % 8

/-- 32-bit `size_t` subtraction `a - b` (wraps modulo `2^32`); used where the
C code subtracts sizes that may underflow.  Assumes `b < 2^32`. -/
def sub32 (a b : Nat) : Nat := (a + W32 - b) % W32

/-- `HDRP(bp) = bp - WSIZE`. -/
def HDRP (bp : Int) : Int := bp - 4

/-- `FTRP(bp) = bp + GET_SIZE(HDRP(bp)) - DSIZE`; reads the header. -/
def FTRP (h : Heap) (bp : Int) : Option Int :=
  (GET h (HDRP bp)).map (fun w => bp + (GET_SIZE w : Int) - 8)

/-- `NEXT_BLKP(bp) = bp + GET_SIZE(bp - WSIZE)`; reads the header. -/
def NEXT_BLKP (h : Heap) (bp : Int) : Option Int :=
  (GET h (bp - 4)).map (fun w => bp + (GET_SIZE w : Int))

/-- `PREV_BLKP(bp) = bp - GET_SIZE(bp - DSIZE)`; reads the previous block's
footer. -/
def PREV_BLKP (h : Heap) (bp : Int) : Option Int :=
  (GET h (bp - 8)).map (fun w => bp - (GET_SIZE w : Int))

/-- The region provider: extend the break by `n` bytes and return the old
break, or return the sentinel `-1` (cast of `(void * ) -1`) when the limit
`hi` refuses the growth, leaving the heap untouched. -/
def mem_sbrk (h : Heap) (n : Nat) : Int × Heap :=
  if h.brk + (n : Int) ≤ h.hi then (h.brk, { h with brk := h.brk + (n : Int) }) else (-1, h)

/-- `numlists = 12`. -/
def numlists : Nat := 12

/-- The size-class loop shared by `ADD_free`, `deletefree` and `find_fit`:
`while (num < numlists-1 && bsize > 1) { bsize >>= 1; num++; }`.  The loop
runs at most `numlists - 1 = 11` times, which bounds the structural fuel. -/
def classAux : Nat → Nat → Nat → Nat
  | 0, num, _ => num
  | fuel + 1, num, bsize =>
    if num < numlists - 1 ∧ 1 < bsize then classAux fuel (num + 1) (bsize / 2) else num

/-- The segregated-list index assigned to a block of size `s`. -/
def classIdx (s : Nat) : Nat := classAux (numlists - 1) 0 s

/-- `GETfreelistp(freelist_p, num)`: address of head slot `num`. -/
def slotAddr (h : Heap) (num : Nat) : Int := h.freelist_p + 4 * (num : Int)

/-- `ADD_free(bp, size)` (mm.c lines 141-177): LIFO insert of `bp` into the
head of the segregated list of `classIdx size`. -/
def ADD_free (h : Heap) (bp : Int) (size : Nat) : Option Heap := do
  let num := classIdx size
  let l ← readPtr h (slotAddr h num)
  if l ≠ 0 then
    let h1 := PUTPTR h (bp + 4) l
    let h2 := PUTPTR h1 bp 0
    let h3 := PUTPTR h2 l bp
    some (PUTPTR h3 (slotAddr h num) bp)
  else
    let h1 := PUTPTR h (slotAddr h num) bp
    let h2 := PUTPTR h1 (bp + 4) l
    some (PUTPTR h2 bp 0)

/-- `deletefree(bp)` (mm.c lines 189-234): unlink `bp` from its segregated
list, patching the head slot when `bp` has no predecessor.  Reads that the C
code performs after an aliasing store are re-issued on the updated heap. -/
def deletefree (h : Heap) (bp : Int) : Option Heap := do
  let hw ← GET h (bp - 4)
  let num := classIdx (GET_SIZE hw)
  let pp ← readPtr h bp
  if pp ≠ 0 then do
    let np ← readPtr h (bp + 4)
    if np ≠ 0 then do
      let h1 := PUTPTR h (pp + 4) np
      let np2 ← readPtr h1 (bp + 4)
      let pp2 ← readPtr h1 bp
      some (PUTPTR h1 np2 pp2)
    else
      some (PUTPTR h (pp + 4) 0)
  else do
    let np ← readPtr h (bp + 4)
    if np ≠ 0 then do
      let h1 := PUTPTR h (slotAddr h num) np
      let np2 ← readPtr h1 (bp + 4)
      some (PUTPTR h1 np2 0)
    else
      some (PUTPTR h (slotAddr h num) np)

/-- Case "previous block free" of `coalesce` (mm.c lines 324-335): unlink
the previous block, grow backwards, rewrite the header at prev and the
footer at `bp`'s end, and re-point `bp` at prev. -/
def coalescePrev (h : Heap) (bp pb : Int) (blocksize : Nat) : Option (Int × Heap) := do
  let h1 ← deletefree h pb
  let pb2 ← PREV_BLKP h1 bp
  let pw2 ← GET h1 (pb2 - 4)
  let blocksize := (blocksize + GET_SIZE pw2) % W32
  let pb3 ← PREV_BLKP h1 bp
  let h2 := PUT h1 (pb3 - 4) (PACK blocksize 0)
  let ft ← FTRP h2 bp
  let h3 := PUT h2 ft (PACK blocksize 0)
  let pb4 ← PREV_BLKP h3 bp
  let h4 ← ADD_free h3 pb4 blocksize
  some (pb4, h4)

/-- Case "next block free" of `coalesce` (mm.c lines 336-345): unlink the
next block, grow forwards, rewrite the header at `bp` and the footer at the
next block's end. -/
def coalesceNext (h : Heap) (bp nb : Int) (blocksize : Nat) : Option (Int × Heap) := do
  let h1 ← deletefree h nb
  let nb2 ← NEXT_BLKP h1 bp
  let nw2 ← GET h1 (nb2 - 4)
  let blocksize := (blocksize + GET_SIZE nw2) % W32
  let h2 := PUT h1 (bp - 4) (PACK blocksize 0)
  let ft ← FTRP h2 bp
  let h3 := PUT h2 ft (PACK blocksize 0)
  let h4 ← ADD_free h3 bp blocksize
  some (bp, h4)

/-- Case "both neighbours free" of `coalesce` (mm.c lines 346-359): unlink
both neighbours, add the next block's footer size and the previous block's
header size, rewrite the header at prev and the footer at next's end. -/
def coalesceBoth (h : Heap) (bp pb : Int) (blocksize : Nat) : Option (Int × Heap) := do
  let h1 ← deletefree h pb
  let nb1 ← NEXT_BLKP h1 bp
  let h2 ← deletefree h1 nb1
  let nb2 ← NEXT_BLKP h2 bp
  let fta ← FTRP h2 nb2
  let fw ← GET h2 fta
  let blocksize := (blocksize + GET_SIZE fw) % W32
  let pb2 ← PREV_BLKP h2 bp
  let pw2 ← GET h2 (pb2 - 4)
  let blocksize := (blocksize + GET_SIZE pw2) % W32
  let h3 := PUT h2 (pb2 - 4) (PACK blocksize 0)
  let nb3 ← NEXT_BLKP h3 bp
  let ft ← FTRP h3 nb3
  let h4 := PUT h3 ft (PACK blocksize 0)
  let pb4 ← PREV_BLKP h4 bp
  let h5 ← ADD_free h4 pb4 blocksize
  some (pb4, h5)

/-- `coalesce(bp)` (mm.c lines 310-364): merge a free block with its free
physical neighbours and insert the result into its size class, dispatching
on the allocation bits of the two neighbours.  Every re-computation of
`PREV_BLKP` / `NEXT_BLKP` / `FTRP` after a store is re-issued on the updated
heap, exactly as the C statements re-evaluate the macros. -/
def coalesce (h : Heap) (bp : Int) : Option (Int × Heap) := do
  let hw ← GET h (bp - 4)
  let blocksize := GET_SIZE hw
  let pb ← PREV_BLKP h bp
  let pw ← GET h (pb - 4)
  let p_status := GET_ALLOC pw
  let nb ← NEXT_BLKP h bp
  let nw ← GET h (nb - 4)
  let n_status := GET_ALLOC nw
  if n_status ≠ 0 ∧ p_status ≠ 0 then do
    let h1 ← ADD_free h bp blocksize
    some (bp, h1)
  else if n_status ≠ 0 ∧ p_status = 0 then coalescePrev h bp pb blocksize
  else if p_status ≠ 0 ∧ n_status = 0 then coalesceNext h bp nb blocksize
  else coalesceBoth h bp pb blocksize

/-- The byte count `extend_heap` hands to `mem_sbrk`:
`size = (words % 2) ? (words+1)*WSIZE : words*WSIZE` in `size_t`. -/
def sbrkBytes (words : Nat) : Nat := ((words + words % 2) % W32 * 4) % W32

/-- `extend_heap(words)` (mm.c lines 109-132): round `words` up to even, ask
the provider for that many bytes, overlay a free block of `MAX(size, 16)`
bytes over the old epilogue slot, write a fresh epilogue after it and
coalesce.  Returns the null pointer (0) when the provider refuses. -/
def extend_heap (h : Heap) (words : Nat) : Option (Int × Heap) :=
  let size := sbrkBytes words
  let (bp, h1) := mem_sbrk h size
  if bp = -1 then some (0, h1)
  else do
    let size := max size 16
    let h2 := PUT h1 (bp - 4) (PACK size 0)
    let ft ← FTRP h2 bp
    let h3 := PUT h2 ft (PACK size 0)
    let nb ← NEXT_BLKP h3 bp
    let h4 := PUT h3 (nb - 4) (PACK 0 1)
    coalesce h4 bp

/-- The `for`-loop of `find_fit` (mm.c lines 288-292): first fit within one
segregated list, returning null (0) at the end of the chain. -/
def ffLoop : Nat → Heap → Int → Nat → Option Int
  | 0, _, bp, _ => if bp = 0 then some 0 else none
  | fuel + 1, h, bp, size =>
    if bp = 0 then some 0
    else do
      let hw ← GET h (bp - 4)
      if size ≤ GET_SIZE hw then some bp
      else do
        let np ← readPtr h (bp + 4)
        ffLoop fuel h np size

/-- `find_fit(size)` (mm.c lines 273-295): search only list `classIdx size`. -/
def find_fit (fuel : Nat) (h : Heap) (size : Nat) : Option Int := do
  let num := classIdx size
  let hd ← readPtr h (slotAddr h num)
  ffLoop fuel h hd size

/-- `place(bp, asize)` (mm.c lines 242-266): unlink `bp`, split off the
surplus when it is at least 16 bytes, and return `bp`.  The size subtraction
is 32-bit (`size_t`). -/
def place (h : Heap) (bp : Int) (asize : Nat) : Option (Int × Heap) := do
  let hw ← GET h (bp - 4)
  let csize := GET_SIZE hw
  let h1 ← deletefree h bp
  if 16 ≤ sub32 csize asize then do
    let h2 := PUT h1 (bp - 4) (PACK asize 1)
    let ft ← FTRP h2 bp
    let h3 := PUT h2 ft (PACK asize 1)
    let fin ← NEXT_BLKP h3 bp
    let h4 := PUT h3 (fin - 4) (PACK (sub32 csize asize) 0)
    let ft2 ← FTRP h4 fin
    let h5 := PUT h4 ft2 (PACK (sub32 csize asize) 0)
    let h6 ← ADD_free h5 fin (sub32 csize asize)
    some (bp, h6)
  else do
    let h2 := PUT h1 (bp - 4) (PACK csize 1)
    let ft ← FTRP h2 bp
    some (bp, PUT h2 ft (PACK csize 1))

/-- The adjusted block size of `mm_malloc` (mm.c lines 422-425), computed in
32-bit `size_t` arithmetic:
`(size <= DSIZE) ? 2*DSIZE : DSIZE*((size + DSIZE + (DSIZE-1))/DSIZE)`. -/
def adjustedSize (size : Nat) : Nat :=
  if size ≤ 8 then 16 else 8 * (((size + 8 + 7) % W32) / 8)

/-- The body of `mm_malloc` after the spurious-request test: search, place,
or extend by `MAX(asize, CHUNKS)` bytes and place. -/
def mallocCore (fuel : Nat) (h : Heap) (asize : Nat) : Option (Int × Heap) := do
  let r ← find_fit fuel h asize
  if r ≠ 0 then place h r asize
  else do
    let extendsize := max asize 32
    let er ← extend_heap h (extendsize / 4)
    if er.1 = 0 then some (0, er.2)
    else place er.2 er.1 asize

/-- `mm_malloc(size)` (mm.c lines 410-444); the null pointer is 0. -/
def mm_malloc (fuel : Nat) (h : Heap) (size : Nat) : Option (Int × Heap) :=
  if size = 0 then some (0, h) else mallocCore fuel h (adjustedSize size)

/-- `mm_free(ptr)` (mm.c lines 451-481): clear the allocation bit in footer
and header (in that order, as in the source) and coalesce.  `runheaptest` is
0 in the source, so the checker invocation is compiled out. -/
def mm_free (h : Heap) (ptr : Int) : Option Heap :=
  if ptr = 0 then some h
  else do
    let hw ← GET h (ptr - 4)
    let blocksize := GET_SIZE hw
    let ft ← FTRP h ptr
    let h1 := PUT h ft (PACK blocksize 0)
    let h2 := PUT h1 (ptr - 4) (PACK blocksize 0)
    let r ← coalesce h2 ptr
    some r.2

/-- Word-by-word ascending copy: `i` words already copied, `n` words to go.
Models the `memcpy` in `mm_realloc` (all its sizes are multiples of 8 and
all pointers 4-aligned, so the byte copy is word-granular). -/
def memcpyAux (dst src : Int) : Nat → Nat → Heap → Option Heap
  | _, 0, h => some h
  | i, n + 1, h => do
    let w ← GET h (src + 4 * (i : Int))
    memcpyAux dst src (i + 1) n (PUT h (dst + 4 * (i : Int)) w)

/-- `memcpy(dst, src, 4 * n4)` on the word-granular heap. -/
def memcpyWords (h : Heap) (dst src : Int) (n4 : Nat) : Option Heap :=
  memcpyAux dst src 0 n4 h

/-- The shrink branch of `mm_realloc` (mm.c lines 534-550): keep the whole
block when the surplus is at most 16 bytes, otherwise split off a free
remainder and insert it into its size class. -/
def reallocShrink (h : Heap) (ptr : Int) (newbsize oldbsize : Nat) : Option (Int × Heap) :=
  if oldbsize - newbsize ≤ 16 then some (ptr, h)
  else do
    let h1 := PUT h (ptr - 4) (PACK newbsize 1)
    let ft ← FTRP h1 ptr
    let h2 := PUT h1 ft (PACK newbsize 1)
    let fin ← NEXT_BLKP h2 ptr
    let h3 := PUT h2 (fin - 4) (PACK (oldbsize - newbsize) 0)
    let ft2 ← FTRP h3 fin
    let h4 := PUT h3 ft2 (PACK (oldbsize - newbsize) 0)
    let h5 ← ADD_free h4 fin (oldbsize - newbsize)
    some (ptr, h5)

/-- The in-place grow branch of `mm_realloc` (mm.c lines 558-581): absorb
the free next block, then either use the whole merged block or split it. -/
def reallocGrowNext (h : Heap) (ptr : Int) (newbsize newoldbsize blocksize : Nat) :
    Option (Int × Heap) := do
  let nb3 ← NEXT_BLKP h ptr
  let h1 ← deletefree h nb3
  let nb4 ← NEXT_BLKP h1 ptr
  let nw4 ← GET h1 (nb4 - 4)
  let blocksize := (blocksize + GET_SIZE nw4) % W32
  let h2 := PUT h1 (ptr - 4) (PACK blocksize 0)
  let ft ← FTRP h2 ptr
  let h3 := PUT h2 ft (PACK blocksize 0)
  if newoldbsize - newbsize < 16 then do
    let h4 := PUT h3 (ptr - 4) (PACK newoldbsize 1)
    let ft2 ← FTRP h4 ptr
    let h5 := PUT h4 ft2 (PACK newoldbsize 1)
    some (ptr, h5)
  else do
    let h4 := PUT h3 (ptr - 4) (PACK newbsize 1)
    let ft2 ← FTRP h4 ptr
    let h5 := PUT h4 ft2 (PACK newbsize 1)
    let fin ← NEXT_BLKP h5 ptr
    let h6 := PUT h5 (fin - 4) (PACK (newoldbsize - newbsize) 0)
    let ft3 ← FTRP h6 fin
    let h7 := PUT h6 ft3 (PACK (newoldbsize - newbsize) 0)
    let h8 ← ADD_free h7 fin (newoldbsize - newbsize)
    some (ptr, h8)

/-- The fall-back branch of `mm_realloc` (mm.c lines 586-596): allocate a
fresh block, copy `newbsize` bytes from the old payload (the source copies
`newbsize`, not the minimum with the old payload size), free the old block
and return the new pointer; null when `mm_malloc` fails. -/
def reallocFallback (fuel : Nat) (h : Heap) (ptr : Int) (newbsize : Nat) :
    Option (Int × Heap) := do
  let r ← mm_malloc fuel h newbsize
  if r.1 = 0 then some (0, r.2)
  else do
    let h2 ← memcpyWords r.2 r.1 ptr (newbsize / 4)
    let h3 ← mm_free h2 ptr
    some (r.1, h3)

/-- `mm_realloc(ptr, size)` (mm.c lines 504-603).  Note the statement order
of the source: `size = ALIGN(size)` and the header read
`oldbsize = GET_SIZE(HDRP(ptr))` are evaluated before the `ptr == NULL`
test, and the `(int)size < 0` test happens after the alignment, both
faithfully mirrored. -/
def mm_realloc (fuel : Nat) (h : Heap) (ptr : Int) (size0 : Nat) : Option (Int × Heap) := do
  let size := ALIGN size0
  let newbsize := (size + 8) % W32
  let hw ← GET h (ptr - 4)
  let oldbsize := GET_SIZE hw
  if ptr = 0 then mm_malloc fuel h size
  else if 2 ^ 31 ≤ size then some (0, h)
  else if size = 0 then do
    let h1 ← mm_free h ptr
    some (0, h1)
  else if newbsize = oldbsize then some (ptr, h)
  else if newbsize < oldbsize then reallocShrink h ptr newbsize oldbsize
  else do
    let hw2 ← GET h (ptr - 4)
    let blocksize := GET_SIZE hw2
    let nb ← NEXT_BLKP h ptr
    let nw ← GET h (nb - 4)
    let n_status := GET_ALLOC nw
    let hw3 ← GET h (ptr - 4)
    let nb2 ← NEXT_BLKP h ptr
    let nw2 ← GET h (nb2 - 4)
    let newoldbsize := (GET_SIZE hw3 + GET_SIZE nw2) % W32
    if n_status = 0 ∧ newbsize ≤ newoldbsize then
      reallocGrowNext h ptr newbsize newoldbsize blocksize
    else reallocFallback fuel h ptr newbsize

/-- Write the 12 head slots to null, as the `for` loop of `mm_init` does. -/
def initSlots : Heap → Nat → Heap
  | h, 0 => h
  | h, n + 1 => PUTPTR (initSlots h n) (h.freelist_p + 4 * (n : Int)) 0

/-- `mm_init()` (mm.c lines 375-401): carve the free-list directory, write
padding, prologue and epilogue, and extend the heap by `CHUNKS/WSIZE = 8`
words.  `none` models the C failure return `-1`. -/
def mm_init (h : Heap) : Option Heap :=
  let (fp, h1) := mem_sbrk h (numlists * 4)
  let h2 := { h1 with freelist_p := fp }
  let h3 := initSlots h2 numlists
  let (hl, h4) := mem_sbrk h3 16
  if hl = -1 then none
  else do
    let h5 := PUT h4 hl 0
    let h6 := PUT h5 (hl + 4) (PACK 8 1)
    let h7 := PUT h6 (hl + 8) (PACK 8 1)
    let h8 := PUT h7 (hl + 12) (PACK 0 1)
    let h9 := { h8 with heap_listp := hl + 8 }
    let r ← extend_heap h9 8
    if r.1 = 0 then none else some r.2

/-- The overlap test of the checker's heap walk (mm.c line 671):
`FTRP(blockpointer) > HDRP(NEXT_BLKP(blockpointer))`. -/
def overlapTest (h : Heap) (bp : Int) : Option Bool := do
  let ft ← FTRP h bp
  let nb ← NEXT_BLKP h bp
  some (decide (nb - 4 < ft))

/-- The inner free-list scan of `mm_check` (mm.c lines 635-659): count each
listed block, fail if it is marked allocated, and fail if either physical
neighbour is free ("contiguous free blocks"). -/
def checkListLoop : Nat → Heap → Int → Nat → Bool → Option (Nat × Bool)
  | 0, _, bp, cnt, chk => if bp = 0 then some (cnt, chk) else none
  | fuel + 1, h, bp, cnt, chk =>
    if bp = 0 then some (cnt, chk)
    else do
      let hw ← GET h (bp - 4)
      let chk1 := if GET_ALLOC hw ≠ 0 then false else chk
      let pb ← PREV_BLKP h bp
      let pw ← GET h (pb - 4)
      let nb ← NEXT_BLKP h bp
      let nw ← GET h (nb - 4)
      let chk2 := if GET_ALLOC pw = 0 ∨ GET_ALLOC nw = 0 then false else chk1
      let np ← readPtr h (bp + 4)
      checkListLoop fuel h np (cnt + 1) chk2

/-- The outer loop over the 12 segregated lists in `mm_check`. -/
def checkListsFrom (fuel : Nat) (h : Heap) : Nat → Nat → Nat → Bool → Option (Nat × Bool)
  | 0, _, cnt, chk => some (cnt, chk)
  | rem + 1, k, cnt, chk => do
    let hd ← readPtr h (slotAddr h k)
    let r ← checkListLoop fuel h hd cnt chk
    checkListsFrom fuel h rem (k + 1) r.1 r.2

/-- The heap walk of `mm_check` (mm.c lines 662-686): from the prologue to
the epilogue, count free blocks, test for overlap and for undersized
blocks. -/
def heapWalk : Nat → Heap → Int → Nat → Nat → Bool → Option (Nat × Bool)
  | 0, _, _, _, _, _ => none
  | fuel + 1, h, bp, count, c, chk => do
    let hw ← GET h (bp - 4)
    if GET_SIZE hw ≠ 0 then do
      let count1 := if GET_ALLOC hw = 0 then count + 1 else count
      let ob ← overlapTest h bp
      let chk1 := if ob then false else chk
      let hw2 ← GET h (bp - 4)
      let chk2 := if 0 < c ∧ GET_SIZE hw2 < 16 then false else chk1
      let nb ← NEXT_BLKP h bp
      heapWalk fuel h nb count1 (c + 1) chk2
    else some (count, chk)

/-- `mm_check()` (mm.c lines 620-705): returns 1 iff every consistency test
passes, 0 otherwise. -/
def mm_check (fuel : Nat) (h : Heap) : Option Nat := do
  let r1 ← checkListsFrom fuel h numlists 0 0 true
  let r2 ← heapWalk fuel h h.heap_listp 0 0 r1.2
  let chk := if r2.1 ≠ r1.1 then false else r2.2
  some (if chk then 1 else 0)

/-- Collect a free-list chain from `bp`, pairing each block pointer with its
header word; the reference list against which `find_fit` is specified. -/
def walkChain : Nat → Heap → Int → Option (List (Int × Word))
  | 0, _, bp => if bp = 0 then some [] else none
  | fuel + 1, h, bp =>
    if bp = 0 then some []
    else do
      let hw ← GET h (bp - 4)
      let np ← readPtr h (bp + 4)
      let l ← walkChain fuel h np
      some ((bp, hw) :: l)

/-- The fresh machine every concrete scenario starts from: all memory words
defined (and zero), the break at address 16, a 10^6-byte growth limit. -/
def h0 : Heap :=
  { mem := fun _ => some 0, brk := 16, hi := 1000000, freelist_p := 0, heap_listp := 0 }

/-- The heap right after a successful `mm_init` on the fresh machine. -/
def hInit : Heap := (mm_init h0).getD h0

/-- Heap state whose memory is entirely unmapped; reading any address of it
fails. -/
def hNone : Heap :=
  { mem := fun _ => none, brk := 16, hi := 1000000, freelist_p := 0, heap_listp := 0 }

/-- The heap after `mm_init` and one `mm_malloc(16)` (which returns the
payload pointer 80) on the fresh machine. -/
def hM16 : Heap :=
  match (do
    let hI ← mm_init h0
    mm_malloc 100 hI 16 : Option (Int × Heap)) with
  | some r => r.2
  | none => h0

/-- `hM16` after the caller stores the four words 171, 205, 239, 18 into the
16-byte payload at 80. -/
def hUser : Heap := PUT (PUT (PUT (PUT hM16 80 171) 84 205) 88 239) 92 18

/-- The specification's `round_up_to_8` (exact natural-number arithmetic,
no wrap-around). -/
def roundUp8 (m : Nat) : Nat := ((m + 7) / 8) * 8

/-- A machine whose provider limit is so low that any extension request of
the allocator is refused. -/
def hTight : Heap :=
  { mem := fun _ => some 0, brk := 16, hi := 20, freelist_p := 0, heap_listp := 0 }

/-- A three-block neighbourhood around the payload pointer 100 whose two
physical neighbours are both allocated (case A of `coalesce`). -/
def wheapA : Heap :=
  { mem := fun a => some (if a = 96 then 16 else if a = 92 then 9 else if a = 88 then 9
      else if a = 112 then 9 else 0),
    brk := 200, hi := 200, freelist_p := 0, heap_listp := 0 }

/-- As `wheapA` but the next block (at 116, sole member of its size class)
is free. -/
def wheapB : Heap :=
  { mem := fun a => some (if a = 96 then 16 else if a = 92 then 9 else if a = 88 then 9
      else if a = 112 then 16 else 0),
    brk := 200, hi := 200, freelist_p := 0, heap_listp := 0 }

/-- `wheapB` after unlinking the free next block. -/
def wheapB1 : Heap := (deletefree wheapB 116).getD wheapB

/-- As `wheapA` but the previous block (at 84, sole member of its size
class) is free. -/
def wheapC : Heap :=
  { mem := fun a => some (if a = 96 then 16 else if a = 92 then 16 else if a = 80 then 16
      else if a = 112 then 9 else 0),
    brk := 200, hi := 200, freelist_p := 0, heap_listp := 0 }

/-- `wheapC` after unlinking the free previous block. -/
def wheapC1 : Heap := (deletefree wheapC 84).getD wheapC

/-- A neighbourhood of 100 where both physical neighbours are free. -/
def wheapD : Heap :=
  { mem := fun a => some (if a = 96 then 16 else if a = 92 then 16 else if a = 80 then 16
      else if a = 112 then 16 else if a = 124 then 16 else 0),
    brk := 200, hi := 200, freelist_p := 0, heap_listp := 0 }

/-- `wheapD` after unlinking the free previous block. -/
def wheapD1 : Heap := (deletefree wheapD 84).getD wheapD

/-- `wheapD1` after also unlinking the free next block. -/
def wheapD2 : Heap := (deletefree wheapD1 116).getD wheapD1

/-- Reading back the address just written. -/
theorem GET_PUT_self (h : Heap) (a : Int) (v : Word) : GET (PUT h a v) a = some (v % W32) := by
  simp [GET, PUT]

/-- A store does not disturb reads at other addresses. -/
theorem GET_PUT_ne (h : Heap) (a b : Int) (v : Word) (hab : a ≠ b) :
    GET (PUT h b v) a = GET h a := by
  simp [GET, PUT, hab]

/-- `PUT` only changes memory, not the globals or the break. -/
theorem PUT_fields (h : Heap) (a : Int) (v : Word) :
    (PUT h a v).freelist_p = h.freelist_p ∧ (PUT h a v).heap_listp = h.heap_listp ∧
    (PUT h a v).brk = h.brk ∧ (PUT h a v).hi = h.hi := by
  refine ⟨rfl, rfl, rfl, rfl⟩

/-- The free-list scan of the checker stops cleanly at a null pointer with
any amount of fuel. -/
theorem checkListLoop_null (f : Nat) (h : Heap) (cnt : Nat) (chk : Bool) :
    checkListLoop f h 0 cnt chk = some (cnt, chk) := by
  cases f <;> simp [checkListLoop]

/-- Reduce a monadic bind on a present optional value. -/
theorem bindSome {a : Type} {b : Type} (x : a) (f : a → Option b) :
    ((some x : Option a) >>= f) = f x := rfl

/-- Decompose a successful monadic bind on `Option`. -/
theorem bind_eq_some_iff {a b : Type} (x : Option a) (f : a → Option b) (y : b) :
    (x >>= f) = some y ↔ ∃ v, x = some v ∧ f v = some y := by
  cases x <;> simp

/-- A size field is always a multiple of 8. -/
theorem GET_SIZE_mod8 (w : Word) : GET_SIZE w % 8 = 0 := by
  unfold GET_SIZE
  omega

/-- Reading the footer address through the header just written at `bp - 4`. -/
theorem FTRP_PUT_hdr (h : Heap) (bp : Int) (S : Nat) (hS : S % 8 = 0) (hSW : S < W32) :
    FTRP (PUT h (bp - 4) S) bp = some (bp + (S : Int) - 8) := by
  simp [FTRP, HDRP, GET_PUT_self, Nat.mod_eq_of_lt hSW, GET_SIZE, hS]

/-- Next-block address computed from the header just written at `bp - 4`. -/
theorem NEXT_PUT_hdr (h : Heap) (bp : Int) (S : Nat) (hS : S % 8 = 0) (hSW : S < W32) :
    NEXT_BLKP (PUT h (bp - 4) S) bp = some (bp + (S : Int)) := by
  simp [NEXT_BLKP, GET_PUT_self, Nat.mod_eq_of_lt hSW, GET_SIZE, hS]

/-- Next-block address from a header untouched by one later store. -/
theorem NEXT_PUT2 (h : Heap) (bp a : Int) (S v : Nat) (ha : bp - 4 ≠ a)
    (hS : S % 8 = 0) (hSW : S < W32) :
    NEXT_BLKP (PUT (PUT h (bp - 4) S) a v) bp = some (bp + (S : Int)) := by
  simp [NEXT_BLKP, GET_PUT_ne _ _ _ _ ha, GET_PUT_self, Nat.mod_eq_of_lt hSW, GET_SIZE, hS]

/-- `place` always hands back the block pointer it was given. -/
theorem place_fst (h : Heap) (bp : Int) (asize : Nat) (q : Int) (h' : Heap)
    (hp : place h bp asize = some (q, h')) : q = bp := by
  unfold place at hp
  cases hG : GET h (bp - 4) with
  | none => rw [hG] at hp; simp at hp
  | some w =>
    rw [hG] at hp
    simp only [bindSome] at hp
    cases hD : deletefree h bp with
    | none => rw [hD] at hp; simp at hp
    | some h1 =>
      rw [hD] at hp
      simp only [bindSome] at hp
      split at hp
      · simp only [bind_eq_some_iff] at hp
        obtain ⟨ft, hft, hp⟩ := hp
        obtain ⟨fin, hfin, hp⟩ := hp
        obtain ⟨ft2, hft2, hp⟩ := hp
        obtain ⟨h6, hh6, hp⟩ := hp
        exact (congrArg Prod.fst (Option.some.inj hp)).symm
      · simp only [bind_eq_some_iff] at hp
        obtain ⟨ft, hft, hp⟩ := hp
        exact (congrArg Prod.fst (Option.some.inj hp)).symm

/-- `extend_heap` returns the null block and leaves the heap untouched when
the region provider refuses the request. -/
theorem extend_heap_refused (h : Heap) (words : Nat)
    (hr : ¬ (h.brk + ((sbrkBytes words : Nat) : Int) ≤ h.hi)) :
    extend_heap h words = some (0, h) := by
  simp only [extend_heap, mem_sbrk, if_neg hr]
  simp

/-- `adjustedSize` is invariant under pre-aligning the request, away from
the top of the `size_t` range. -/
theorem adjustedSize_ALIGN (n : Nat) (hn : n ≤ W32 - 16) :
    adjustedSize (ALIGN n) = adjustedSize n := by
  unfold adjustedSize ALIGN W32 at *
  split <;> split <;> omega

/-- `mm_malloc` gives the same result on `ALIGN n` and on `n`. -/
theorem mm_malloc_ALIGN (fuel : Nat) (h : Heap) (n : Nat) (hn : n ≤ W32 - 16) :
    mm_malloc fuel h (ALIGN n) = mm_malloc fuel h n := by
  by_cases h0 : n = 0
  · subst h0
    have hA : ALIGN 0 = 0 := by decide
    rw [hA]
  · have hA0 : ALIGN n ≠ 0 := by unfold ALIGN W32 at *; omega
    unfold mm_malloc
    rw [if_neg h0, if_neg hA0, adjustedSize_ALIGN n hn]

/-- The first-fit loop of `find_fit` returns the first fitting block of the
chain that `walkChain` collects, and null (0) when no listed block fits. -/
theorem ffLoop_eq_walk (h : Heap) (s : Nat) :
    ∀ (f : Nat) (bp : Int) (l : List (Int × Word)), walkChain f h bp = some l →
      ffLoop f h bp s =
        some (((l.find? (fun e => decide (s ≤ GET_SIZE e.2))).map (fun e => e.1)).getD 0) := by
  intro f
  induction f with
  | zero =>
    intro bp l hw
    unfold walkChain at hw
    by_cases hbp : bp = 0
    · subst hbp
      rw [if_pos rfl] at hw
      cases hw
      simp [ffLoop]
    · rw [if_neg hbp] at hw
      cases hw
  | succ f ih =>
    intro bp l hw
    unfold walkChain at hw
    unfold ffLoop
    by_cases hbp : bp = 0
    · subst hbp
      rw [if_pos rfl] at hw
      cases hw
      simp
    · rw [if_neg hbp] at hw ⊢
      simp only [bind_eq_some_iff] at hw
      obtain ⟨w, hG, hw⟩ := hw
      obtain ⟨np, hnp, hw⟩ := hw
      obtain ⟨l', hl', hl⟩ := hw
      cases hl
      rw [hG]
      simp only [bindSome]
      by_cases hfit : s ≤ GET_SIZE w
      · rw [if_pos hfit]
        rw [List.find?_cons_of_pos _ (by simpa using hfit)]
        rfl
      · rw [if_neg hfit]
        rw [hnp]
        simp only [bindSome]
        rw [List.find?_cons_of_neg _ (by simpa using hfit)]
        exact ih np l' hl'

/-- Case A of `coalesce`: with both physical neighbours allocated, the block
is simply inserted into its size class and returned unchanged. -/
theorem coalesce_both_allocated :
    ∀ (h : Heap) (bp pb nb : Int) (hw pw nw : Word),
      GET h (bp - 4) = some hw →
      PREV_BLKP h bp = some pb → GET h (pb - 4) = some pw →
      NEXT_BLKP h bp = some nb → GET h (nb - 4) = some nw →
      GET_ALLOC pw ≠ 0 → GET_ALLOC nw ≠ 0 →
      coalesce h bp = (do
        let h1 ← ADD_free h bp (GET_SIZE hw)
        some (bp, h1)) := by
  intro h bp pb nb hw pw nw hhw hpb hpw hnb hnw hpa hna
  simp only [coalesce, hhw, hpb, hpw, hnb, hnw, bindSome, if_pos (And.intro hna hpa)]

/-- Case "next free" of `coalesce`: the next block is unlinked, the merged
block of size `size(p) + size(next)` starts at `bp`, its header is rewritten
at `bp` and its footer at the end of the old next block, and the merged
block is inserted into the class of the combined size. -/
theorem coalesce_next_free :
    ∀ (h : Heap) (bp pb nb : Int) (hw pw nw : Word) (h1 : Heap),
      GET h (bp - 4) = some hw →
      PREV_BLKP h bp = some pb → GET h (pb - 4) = some pw →
      NEXT_BLKP h bp = some nb → GET h (nb - 4) = some nw →
      GET_ALLOC pw ≠ 0 → GET_ALLOC nw = 0 →
      deletefree h nb = some h1 →
      GET h1 (bp - 4) = some hw →
      GET h1 (nb - 4) = some nw →
      GET_SIZE hw + GET_SIZE nw < W32 →
      (coalesce h bp = (do
        let h4 ← ADD_free
            (PUT (PUT h1 (bp - 4) (PACK (GET_SIZE hw + GET_SIZE nw) 0))
              (bp + ((GET_SIZE hw + GET_SIZE nw : Nat) : Int) - 8)
              (PACK (GET_SIZE hw + GET_SIZE nw) 0))
            bp (GET_SIZE hw + GET_SIZE nw)
        some (bp, h4))) ∧
      nb = bp + (GET_SIZE hw : Int) ∧
      bp + ((GET_SIZE hw + GET_SIZE nw : Nat) : Int) - 8 = nb + (GET_SIZE nw : Int) - 8 := by
  intro h bp pb nb hw pw nw h1 hhw hpb hpw hnb hnw hpa hnf hdel hst1 hst2 hsum
  have hnbv : nb = bp + (GET_SIZE hw : Int) := by
    unfold NEXT_BLKP at hnb
    rw [hhw] at hnb
    simpa using hnb.symm
  have hS8 : (GET_SIZE hw + GET_SIZE nw) % 8 = 0 := by
    have g1 := GET_SIZE_mod8 hw
    have g2 := GET_SIZE_mod8 nw
    omega
  have hc1 : ¬ (GET_ALLOC nw ≠ 0 ∧ GET_ALLOC pw ≠ 0) := by simp [hnf]
  have hc2 : ¬ (GET_ALLOC nw ≠ 0 ∧ GET_ALLOC pw = 0) := by simp [hnf]
  have hc3 : GET_ALLOC pw ≠ 0 ∧ GET_ALLOC nw = 0 := ⟨hpa, hnf⟩
  refine ⟨?_, hnbv, by rw [hnbv]; push_cast; ring⟩
  simp only [coalesce, hhw, hpb, hpw, hnb, hnw, bindSome, if_neg hc1, if_neg hc2, if_pos hc3]
  simp only [coalesceNext, hdel, bindSome]
  simp only [NEXT_BLKP, hst1, Option.map_some', bindSome]
  rw [← hnbv]
  simp only [hst2, bindSome]
  rw [Nat.mod_eq_of_lt hsum]
  rw [show PACK (GET_SIZE hw + GET_SIZE nw) 0 = GET_SIZE hw + GET_SIZE nw from Nat.or_zero _]
  rw [FTRP_PUT_hdr _ _ _ hS8 hsum]
  simp only [bindSome]

/-- Case "previous free" of `coalesce`: the previous block is unlinked, the
merged block of size `size(p) + size(prev)` starts at prev, its header is
rewritten at prev and its footer at the end of `bp`'s block, and the merged
block is inserted into the class of the combined size. -/
theorem coalesce_prev_free :
    ∀ (h : Heap) (bp pb nb : Int) (hw pw nw fw : Word) (h1 : Heap),
      GET h (bp - 4) = some hw →
      GET h (bp - 8) = some fw →
      pb = bp - (GET_SIZE fw : Int) →
      GET h (pb - 4) = some pw →
      NEXT_BLKP h bp = some nb → GET h (nb - 4) = some nw →
      GET_ALLOC nw ≠ 0 → GET_ALLOC pw = 0 →
      deletefree h pb = some h1 →
      GET h1 (bp - 8) = some fw →
      GET h1 (pb - 4) = some pw →
      GET h1 (bp - 4) = some hw →
      pb ≠ bp → pb ≠ bp - 4 → 0 < GET_SIZE hw →
      GET_SIZE hw + GET_SIZE pw < W32 →
      (coalesce h bp = (do
        let h4 ← ADD_free
            (PUT (PUT h1 (pb - 4) (PACK (GET_SIZE hw + GET_SIZE pw) 0))
              (bp + (GET_SIZE hw : Int) - 8)
              (PACK (GET_SIZE hw + GET_SIZE pw) 0))
            pb (GET_SIZE hw + GET_SIZE pw)
        some (pb, h4))) ∧
      (GET_SIZE fw = GET_SIZE pw →
        bp + (GET_SIZE hw : Int) - 8 = pb + ((GET_SIZE hw + GET_SIZE pw : Nat) : Int) - 8) := by
  intro h bp pb nb hw pw nw fw h1 hhw hfw hpbv hpw hnb hnw hna hpf hdel hst1 hst2 hst3
    hne1 hne2 hszpos hsum
  have hpb : PREV_BLKP h bp = some pb := by
    unfold PREV_BLKP
    rw [hfw]
    simp [hpbv]
  have hc1 : ¬ (GET_ALLOC nw ≠ 0 ∧ GET_ALLOC pw ≠ 0) := by simp [hpf]
  have hc2 : GET_ALLOC nw ≠ 0 ∧ GET_ALLOC pw = 0 := ⟨hna, hpf⟩
  constructor
  · simp only [coalesce, hhw, hpb, hpw, hnb, hnw, bindSome, if_neg hc1, if_pos hc2]
    simp only [coalescePrev, hdel, bindSome]
    simp only [PREV_BLKP, hst1, Option.map_some', bindSome]
    rw [← hpbv]
    simp only [hst2, bindSome]
    rw [Nat.mod_eq_of_lt hsum]
    rw [show PACK (GET_SIZE hw + GET_SIZE pw) 0 = GET_SIZE hw + GET_SIZE pw from Nat.or_zero _]
    simp only [FTRP, HDRP]
    rw [GET_PUT_ne _ _ _ _ (by omega : bp - 4 ≠ pb - 4)]
    rw [hst3]
    simp only [Option.map_some', bindSome]
    rw [GET_PUT_ne _ _ _ _ (by omega : bp - 8 ≠ bp + (GET_SIZE hw : Int) - 8)]
    rw [GET_PUT_ne _ _ _ _ (by omega : bp - 8 ≠ pb - 4)]
    rw [hst1]
    simp only [Option.map_some', bindSome]
    rw [← hpbv]
  · intro hc
    rw [hpbv, hc]
    push_cast
    ring

/-- Case "both free" of `coalesce`: both neighbours are unlinked, the merged
block of size `size(p) + size-from-next's-footer + size(prev)` starts at
prev, its header is rewritten at prev and its footer at the end of the old
next block, and the merged block is inserted into the class of the combined
size. -/
theorem coalesce_both_free :
    ∀ (h : Heap) (bp pb nb : Int) (hw pw nw fw ffw : Word) (h1 h2 : Heap),
      GET h (bp - 4) = some hw →
      GET h (bp - 8) = some fw →
      pb = bp - (GET_SIZE fw : Int) →
      GET h (pb - 4) = some pw →
      NEXT_BLKP h bp = some nb → GET h (nb - 4) = some nw →
      GET_ALLOC pw = 0 → GET_ALLOC nw = 0 →
      deletefree h pb = some h1 →
      GET h1 (bp - 4) = some hw →
      deletefree h1 nb = some h2 →
      GET h2 (bp - 4) = some hw →
      GET h2 (nb - 4) = some nw →
      GET h2 (nb + (GET_SIZE nw : Int) - 8) = some ffw →
      GET h2 (bp - 8) = some fw →
      GET h2 (pb - 4) = some pw →
      pb ≠ bp → pb ≠ nb → pb ≠ bp - 4 → 0 < GET_SIZE hw →
      GET_SIZE hw + GET_SIZE ffw + GET_SIZE pw < W32 →
      (coalesce h bp = (do
        let h5 ← ADD_free
            (PUT (PUT h2 (pb - 4) (PACK (GET_SIZE hw + GET_SIZE ffw + GET_SIZE pw) 0))
              (nb + (GET_SIZE nw : Int) - 8)
              (PACK (GET_SIZE hw + GET_SIZE ffw + GET_SIZE pw) 0))
            pb (GET_SIZE hw + GET_SIZE ffw + GET_SIZE pw)
        some (pb, h5))) ∧
      nb = bp + (GET_SIZE hw : Int) ∧
      (GET_SIZE ffw = GET_SIZE nw → GET_SIZE fw = GET_SIZE pw →
        nb + (GET_SIZE nw : Int) - 8 =
          pb + ((GET_SIZE hw + GET_SIZE ffw + GET_SIZE pw : Nat) : Int) - 8) := by
  intro h bp pb nb hw pw nw fw ffw h1 h2 hhw hfw hpbv hpw hnb hnw hpf hnf hd1 hst1 hd2
    hst2 hst3 hftw hst4 hst5 hne1 hne2 hne3 hszpos hsum
  have hnbv : nb = bp + (GET_SIZE hw : Int) := by
    unfold NEXT_BLKP at hnb
    rw [hhw] at hnb
    simpa using hnb.symm
  have hpb : PREV_BLKP h bp = some pb := by
    unfold PREV_BLKP
    rw [hfw]
    simp [hpbv]
  have hc1 : ¬ (GET_ALLOC nw ≠ 0 ∧ GET_ALLOC pw ≠ 0) := by simp [hnf]
  have hc2 : ¬ (GET_ALLOC nw ≠ 0 ∧ GET_ALLOC pw = 0) := by simp [hnf]
  have hc3 : ¬ (GET_ALLOC pw ≠ 0 ∧ GET_ALLOC nw = 0) := by simp [hpf]
  have hsum1 : GET_SIZE hw + GET_SIZE ffw < W32 := by omega
  refine ⟨?_, hnbv, ?_⟩
  · simp only [coalesce, hhw, hpb, hpw, hnb, hnw, bindSome, if_neg hc1, if_neg hc2, if_neg hc3]
    simp only [coalesceBoth, hd1, bindSome]
    simp only [NEXT_BLKP, hst1, Option.map_some', bindSome]
    rw [← hnbv]
    simp only [hd2, bindSome]
    simp only [hst2, Option.map_some', bindSome]
    rw [← hnbv]
    simp only [FTRP, HDRP, hst3, Option.map_some', bindSome]
    simp only [hftw, bindSome]
    rw [Nat.mod_eq_of_lt hsum1]
    simp only [PREV_BLKP, hst4, Option.map_some', bindSome]
    rw [← hpbv]
    simp only [hst5, bindSome]
    rw [Nat.mod_eq_of_lt hsum]
    rw [show PACK (GET_SIZE hw + GET_SIZE ffw + GET_SIZE pw) 0
        = GET_SIZE hw + GET_SIZE ffw + GET_SIZE pw from Nat.or_zero _]
    rw [GET_PUT_ne _ _ _ _ (by omega : bp - 4 ≠ pb - 4)]
    rw [hst2]
    simp only [Option.map_some', bindSome]
    rw [← hnbv]
    rw [GET_PUT_ne _ _ _ _ (by omega : nb - 4 ≠ pb - 4)]
    rw [hst3]
    simp only [Option.map_some', bindSome]
    rw [GET_PUT_ne _ _ _ _ (by omega : bp - 8 ≠ nb + (GET_SIZE nw : Int) - 8)]
    rw [GET_PUT_ne _ _ _ _ (by omega : bp - 8 ≠ pb - 4)]
    rw [hst4]
    simp only [Option.map_some', bindSome]
    rw [← hpbv]
  · intro hcn hcp
    rw [hnbv, hpbv, hcn, hcp]
    push_cast
    ring

/-- C1: the spec claims `mm_check` returns true after every valid call
sequence, and in particular after `p = malloc(100); q = realloc(p, 50)` with
`q = p` and the surplus split off as a free block.  On the embedded code the
scenario indeed yields `q = p` (both 80) and a free surplus block (header
word 48 = size 48, allocation bit 0, at the split point), but `mm_check`
returns 0, not 1: the shrink path of `mm_realloc` inserts the remainder
without coalescing, leaving two physically adjacent free blocks, which the
checker's contiguous-free-block test reports.  This contradicts the claim
(and the source's own "IMMEDIATE COALESCING" discipline), so the claim is
classified as a code bug. -/
theorem claim1_realloc_shrink_fails_checker :
    (do
      let hI ← mm_init h0
      let r1 ← mm_malloc 100 hI 100
      let r2 ← mm_realloc 100 r1.2 r1.1 50
      let c ← mm_check 100 r2.2
      pure (r1.1, r2.1, GET r2.2 (HDRP 144), GET r2.2 (HDRP 192), c) :
      Option (Int × Int × Option Word × Option Word × Nat))
    = some (80, 80, some 48, some 32, 0) := by decide

/-- C2: `coalesce(p)` on a just-freed block behaves by cases on the two
neighbours' allocation bits: if both neighbours are allocated, `p`'s block
is inserted into its free list (`ADD_free`) and `p` is returned; if only the
next block is free, next is unlinked (`deletefree`) and the result is a
block of size `size(p) + size(next)` starting at `p`, with the new header at
`p` and the new footer at the end of the old next block; if only the
previous block is free, prev is unlinked and the result is a block of size
`size(p) + size(prev)` starting at prev; if both are free, both are
unlinked and the result is a block of combined size starting at prev with
its footer at the end of the old next block; in the last three cases the
resulting block is handed to `ADD_free` with the combined size, i.e. it is
inserted into the free list of its size class.  The hypotheses record the
reads the source performs and that the free-list unlinking does not alias
the boundary tags involved. -/
theorem claim2_coalesce_case_analysis :
    (∀ (h : Heap) (bp pb nb : Int) (hw pw nw : Word),
      GET h (bp - 4) = some hw →
      PREV_BLKP h bp = some pb → GET h (pb - 4) = some pw →
      NEXT_BLKP h bp = some nb → GET h (nb - 4) = some nw →
      GET_ALLOC pw ≠ 0 → GET_ALLOC nw ≠ 0 →
      coalesce h bp = (do
        let h1 ← ADD_free h bp (GET_SIZE hw)
        some (bp, h1))) ∧
    (∀ (h : Heap) (bp pb nb : Int) (hw pw nw : Word) (h1 : Heap),
      GET h (bp - 4) = some hw →
      PREV_BLKP h bp = some pb → GET h (pb - 4) = some pw →
      NEXT_BLKP h bp = some nb → GET h (nb - 4) = some nw →
      GET_ALLOC pw ≠ 0 → GET_ALLOC nw = 0 →
      deletefree h nb = some h1 →
      GET h1 (bp - 4) = some hw →
      GET h1 (nb - 4) = some nw →
      GET_SIZE hw + GET_SIZE nw < W32 →
      (coalesce h bp = (do
        let h4 ← ADD_free
            (PUT (PUT h1 (bp - 4) (PACK (GET_SIZE hw + GET_SIZE nw) 0))
              (bp + ((GET_SIZE hw + GET_SIZE nw : Nat) : Int) - 8)
              (PACK (GET_SIZE hw + GET_SIZE nw) 0))
            bp (GET_SIZE hw + GET_SIZE nw)
        some (bp, h4))) ∧
      nb = bp + (GET_SIZE hw : Int) ∧
      bp + ((GET_SIZE hw + GET_SIZE nw : Nat) : Int) - 8 = nb + (GET_SIZE nw : Int) - 8) ∧
    (∀ (h : Heap) (bp pb nb : Int) (hw pw nw fw : Word) (h1 : Heap),
      GET h (bp - 4) = some hw →
      GET h (bp - 8) = some fw →
      pb = bp - (GET_SIZE fw : Int) →
      GET h (pb - 4) = some pw →
      NEXT_BLKP h bp = some nb → GET h (nb - 4) = some nw →
      GET_ALLOC nw ≠ 0 → GET_ALLOC pw = 0 →
      deletefree h pb = some h1 →
      GET h1 (bp - 8) = some fw →
      GET h1 (pb - 4) = some pw →
      GET h1 (bp - 4) = some hw →
      pb ≠ bp → pb ≠ bp - 4 → 0 < GET_SIZE hw →
      GET_SIZE hw + GET_SIZE pw < W32 →
      (coalesce h bp = (do
        let h4 ← ADD_free
            (PUT (PUT h1 (pb - 4) (PACK (GET_SIZE hw + GET_SIZE pw) 0))
              (bp + (GET_SIZE hw : Int) - 8)
              (PACK (GET_SIZE hw + GET_SIZE pw) 0))
            pb (GET_SIZE hw + GET_SIZE pw)
        some (pb, h4))) ∧
      (GET_SIZE fw = GET_SIZE pw →
        bp + (GET_SIZE hw : Int) - 8 = pb + ((GET_SIZE hw + GET_SIZE pw : Nat) : Int) - 8)) ∧
    (∀ (h : Heap) (bp pb nb : Int) (hw pw nw fw ffw : Word) (h1 h2 : Heap),
      GET h (bp - 4) = some hw →
      GET h (bp - 8) = some fw →
      pb = bp - (GET_SIZE fw : Int) →
      GET h (pb - 4) = some pw →
      NEXT_BLKP h bp = some nb → GET h (nb - 4) = some nw →
      GET_ALLOC pw = 0 → GET_ALLOC nw = 0 →
      deletefree h pb = some h1 →
      GET h1 (bp - 4) = some hw →
      deletefree h1 nb = some h2 →
      GET h2 (bp - 4) = some hw →
      GET h2 (nb - 4) = some nw →
      GET h2 (nb + (GET_SIZE nw : Int) - 8) = some ffw →
      GET h2 (bp - 8) = some fw →
      GET h2 (pb - 4) = some pw →
      pb ≠ bp → pb ≠ nb → pb ≠ bp - 4 → 0 < GET_SIZE hw →
      GET_SIZE hw + GET_SIZE ffw + GET_SIZE pw < W32 →
      (coalesce h bp = (do
        let h5 ← ADD_free
            (PUT (PUT h2 (pb - 4) (PACK (GET_SIZE hw + GET_SIZE ffw + GET_SIZE pw) 0))
              (nb + (GET_SIZE nw : Int) - 8)
              (PACK (GET_SIZE hw + GET_SIZE ffw + GET_SIZE pw) 0))
            pb (GET_SIZE hw + GET_SIZE ffw + GET_SIZE pw)
        some (pb, h5))) ∧
      nb = bp + (GET_SIZE hw : Int) ∧
      (GET_SIZE ffw = GET_SIZE nw → GET_SIZE fw = GET_SIZE pw →
        nb + (GET_SIZE nw : Int) - 8 =
          pb + ((GET_SIZE hw + GET_SIZE ffw + GET_SIZE pw : Nat) : Int) - 8)) :=
  ⟨coalesce_both_allocated, coalesce_next_free, coalesce_prev_free, coalesce_both_free⟩

/-- Witness for C2: the four cases of `claim2_coalesce_case_analysis`
evaluated on concrete three-block neighbourhoods. -/
theorem claim2_coalesce_case_analysis_witness :
    (coalesce wheapA 100 = (do
      let h1 ← ADD_free wheapA 100 (GET_SIZE 16)
      some ((100 : Int), h1))) ∧
    (coalesce wheapB 100 = (do
      let h4 ← ADD_free
          (PUT (PUT wheapB1 (100 - 4) (PACK (GET_SIZE 16 + GET_SIZE 16) 0))
            (100 + ((GET_SIZE 16 + GET_SIZE 16 : Nat) : Int) - 8)
            (PACK (GET_SIZE 16 + GET_SIZE 16) 0))
          100 (GET_SIZE 16 + GET_SIZE 16)
      some ((100 : Int), h4))) ∧
    (coalesce wheapC 100 = (do
      let h4 ← ADD_free
          (PUT (PUT wheapC1 (84 - 4) (PACK (GET_SIZE 16 + GET_SIZE 16) 0))
            (100 + (GET_SIZE 16 : Int) - 8)
            (PACK (GET_SIZE 16 + GET_SIZE 16) 0))
          84 (GET_SIZE 16 + GET_SIZE 16)
      some ((84 : Int), h4))) ∧
    (coalesce wheapD 100 = (do
      let h5 ← ADD_free
          (PUT (PUT wheapD2 (84 - 4) (PACK (GET_SIZE 16 + GET_SIZE 16 + GET_SIZE 16) 0))
            (116 + (GET_SIZE 16 : Int) - 8)
            (PACK (GET_SIZE 16 + GET_SIZE 16 + GET_SIZE 16) 0))
          84 (GET_SIZE 16 + GET_SIZE 16 + GET_SIZE 16)
      some ((84 : Int), h5))) :=
  ⟨claim2_coalesce_case_analysis.1 wheapA 100 92 116 16 9 9
      (by decide) (by decide) (by decide) (by decide) (by decide) (by decide) (by decide),
   (claim2_coalesce_case_analysis.2.1 wheapB 100 92 116 16 9 16 wheapB1
      (by decide) (by decide) (by decide) (by decide) (by decide) (by decide) (by decide)
      rfl (by decide) (by decide) (by decide)).1,
   (claim2_coalesce_case_analysis.2.2.1 wheapC 100 84 116 16 16 9 16 wheapC1
      (by decide) (by decide) (by decide) (by decide) (by decide) (by decide) (by decide)
      (by decide) rfl (by decide) (by decide) (by decide) (by decide) (by decide) (by decide)
      (by decide)).1,
   (claim2_coalesce_case_analysis.2.2.2 wheapD 100 84 116 16 16 16 16 16 wheapD1 wheapD2
      (by decide) (by decide) (by decide) (by decide) (by decide) (by decide) (by decide)
      (by decide) rfl (by decide) rfl (by decide) (by decide) (by decide) (by decide)
      (by decide) (by decide) (by decide) (by decide) (by decide) (by decide)).1⟩

/-- C3 counterexample: the claim says `allocate(n)` serves
`asize = round_up_to_8(n + 8)` for every `n > 8`, but `adjustedSize` is
computed in 32-bit `size_t` arithmetic: at `n = 2^32 - 1` the code computes
asize 8 while `round_up_to_8(n + 8) = 2^32 + 8`, and `mm_malloc` happily
serves the 8-byte request (returning block 80 on the fresh initialized
heap) even though extending by more than 2^32 bytes is impossible there. -/
theorem claim3_counterexample_overflow :
    adjustedSize (W32 - 1) = 8 ∧ roundUp8 ((W32 - 1) + 8) = W32 + 8 ∧
    (8 : Nat) ≠ W32 + 8 ∧
    (do
      let r ← mm_malloc 100 hInit (W32 - 1)
      pure r.1 : Option Int) = some 80 := by decide

/-- C3 amended: `mm_malloc(0)` returns null with the heap untouched; for
`0 < n ≤ 8` the adjusted size is 16 and for `8 < n` with `n + 15 < 2^32` it
equals `round_up_to_8(n + 8)` (in general it is
`8 * (((n + 15) mod 2^32) / 8)`, the `size_t` computation of the source); a
`find_fit` hit `r` is served by `place(r, asize)`; on a miss `mm_malloc`
extends the heap by `max(asize, CHUNKSIZE) / WSIZE` words and places into
the result unless the extension hands back the null block; when the region
provider refuses the growth the call returns null with the heap unchanged;
and conversely a null result for a nonzero request on the miss path occurs
only when `extend_heap` returned the null block. -/
theorem claim3_amended_malloc_protocol (fuel : Nat) (h : Heap) :
    (mm_malloc fuel h 0 = some (0, h)) ∧
    (∀ n : Nat, 0 < n → n ≤ 8 → adjustedSize n = 16) ∧
    (∀ n : Nat, 8 < n → n + 15 < W32 → adjustedSize n = roundUp8 (n + 8)) ∧
    (∀ n : Nat, adjustedSize n = if n ≤ 8 then 16 else 8 * (((n + 15) % W32) / 8)) ∧
    (∀ (n : Nat) (r : Int), n ≠ 0 → find_fit fuel h (adjustedSize n) = some r → r ≠ 0 →
      mm_malloc fuel h n = place h r (adjustedSize n)) ∧
    (∀ n : Nat, n ≠ 0 → find_fit fuel h (adjustedSize n) = some 0 →
      mm_malloc fuel h n = (do
        let er ← extend_heap h (max (adjustedSize n) 32 / 4)
        if er.1 = 0 then some ((0 : Int), er.2) else place er.2 er.1 (adjustedSize n))) ∧
    (∀ n : Nat, n ≠ 0 → find_fit fuel h (adjustedSize n) = some 0 →
      ¬ (h.brk + ((sbrkBytes (max (adjustedSize n) 32 / 4) : Nat) : Int) ≤ h.hi) →
      mm_malloc fuel h n = some (0, h)) ∧
    (∀ (n : Nat) (h' : Heap), n ≠ 0 → find_fit fuel h (adjustedSize n) = some 0 →
      mm_malloc fuel h n = some (0, h') →
      extend_heap h (max (adjustedSize n) 32 / 4) = some (0, h')) := by
  have hcore : ∀ n : Nat, n ≠ 0 → find_fit fuel h (adjustedSize n) = some 0 →
      mm_malloc fuel h n = (do
        let er ← extend_heap h (max (adjustedSize n) 32 / 4)
        if er.1 = 0 then some ((0 : Int), er.2) else place er.2 er.1 (adjustedSize n)) := by
    intro n hn hfind
    simp [mm_malloc, mallocCore, hn, hfind]
  refine ⟨by simp [mm_malloc], ?_, ?_, ?_, ?_, hcore, ?_, ?_⟩
  · intro n h1 h2
    unfold adjustedSize
    rw [if_pos h2]
  · intro n h8 hW
    unfold adjustedSize roundUp8 W32 at *
    split <;> omega
  · intro n
    rfl
  · intro n r hn hfind hr
    simp [mm_malloc, mallocCore, hn, hfind, hr]
  · intro n hn hfind hrefuse
    rw [hcore n hn hfind, extend_heap_refused _ _ hrefuse]
    simp
  · intro n h' hn hfind heq
    rw [hcore n hn hfind] at heq
    cases hext : extend_heap h (max (adjustedSize n) 32 / 4) with
    | none => rw [hext] at heq; simp at heq
    | some er =>
      rw [hext] at heq
      simp only [bindSome] at heq
      by_cases he0 : er.1 = 0
      · rw [if_pos he0] at heq
        rw [← heq]
        exact congrArg some (by rcases er with ⟨a, b⟩; simp only at he0 ⊢; rw [he0])
      · rw [if_neg he0] at heq
        have hq := place_fst er.2 er.1 (adjustedSize n) 0 h' heq
        exact absurd hq.symm he0

/-- Witness for C3: the amended protocol evaluated on concrete heaps: a
zero request, the two adjusted-size formulas, a fit hit on the initialized
heap, a miss, a refused extension on a tight provider, and the null-only-
from-extension direction. -/
theorem claim3_amended_malloc_protocol_witness :
    (mm_malloc 7 h0 0 = some (0, h0)) ∧
    adjustedSize 5 = 16 ∧
    adjustedSize 100 = roundUp8 (100 + 8) ∧
    (mm_malloc 100 hInit 20 = place hInit 80 (adjustedSize 20)) ∧
    (mm_malloc 100 hInit 100 = (do
      let er ← extend_heap hInit (max (adjustedSize 100) 32 / 4)
      if er.1 = 0 then some ((0 : Int), er.2) else place er.2 er.1 (adjustedSize 100))) ∧
    (mm_malloc 100 hTight 100 = some (0, hTight)) ∧
    (extend_heap hTight (max (adjustedSize 100) 32 / 4) = some (0, hTight)) :=
  ⟨(claim3_amended_malloc_protocol 7 h0).1,
   (claim3_amended_malloc_protocol 7 h0).2.1 5 (by decide) (by decide),
   (claim3_amended_malloc_protocol 7 h0).2.2.1 100 (by decide) (by decide),
   (claim3_amended_malloc_protocol 100 hInit).2.2.2.2.1 20 80 (by decide) (by decide)
     (by decide),
   (claim3_amended_malloc_protocol 100 hInit).2.2.2.2.2.1 100 (by decide) (by decide),
   (claim3_amended_malloc_protocol 100 hTight).2.2.2.2.2.2.1 100 (by decide) (by decide)
     (by decide),
   (claim3_amended_malloc_protocol 100 hTight).2.2.2.2.2.2.2 100 hTight (by decide)
     (by decide)
     ((claim3_amended_malloc_protocol 100 hTight).2.2.2.2.2.2.1 100 (by decide) (by decide)
       (by decide))⟩

/-- C4: `find_fit(asize)` searches only the single segregated list of index
`classIdx asize`: its result is the first member of that list's chain whose
size field is at least `asize` (null, i.e. 0, when no member fits), and
when that list is empty the result is null no matter what the other eleven
lists contain. -/
theorem claim4_find_fit_single_class (h : Heap) :
    (∀ (f : Nat) (s : Nat) (hd : Int) (l : List (Int × Word)),
      readPtr h (slotAddr h (classIdx s)) = some hd → walkChain f h hd = some l →
      find_fit f h s =
        some (((l.find? (fun e => decide (s ≤ GET_SIZE e.2))).map (fun e => e.1)).getD 0)) ∧
    (∀ (f : Nat) (s : Nat), readPtr h (slotAddr h (classIdx s)) = some 0 →
      find_fit (f + 1) h s = some 0) := by
  constructor
  · intro f s hd l hhd hwalk
    simp only [find_fit]
    rw [hhd]
    simp only [bindSome]
    exact ffLoop_eq_walk h s f hd l hwalk
  · intro f s hhd
    simp only [find_fit]
    rw [hhd]
    simp only [bindSome]
    unfold ffLoop
    rw [if_pos rfl]

/-- Witness for C4 on the initialized heap: list 5 holds exactly the free
block 80 of size 32, a request of 40 scans that chain and misses, and a
request of 20 (class 4, empty list) misses even though the size-32 block in
class 5 would fit it. -/
theorem claim4_find_fit_single_class_witness :
    (find_fit 100 hInit 40 =
      some (((([((80 : Int), (32 : Word))]).find?
        (fun e => decide (40 ≤ GET_SIZE e.2))).map (fun e => e.1)).getD 0)) ∧
    find_fit 100 hInit 20 = some 0 ∧
    GET hInit (HDRP 80) = some 32 ∧ 20 ≤ GET_SIZE 32 :=
  ⟨(claim4_find_fit_single_class hInit).1 100 40 80 [(80, 32)] (by decide) (by decide),
   (claim4_find_fit_single_class hInit).2 99 20 (by decide),
   by decide, by decide⟩

/-- C5 counterexample: `extend_heap(2)` on the initialized heap asks the
provider for exactly 8 bytes (`sbrkBytes 2 = 8`, and the break moves by 8),
but the free-block header overlaid at the returned address (the old
epilogue slot, `HDRP 112`) encodes 16, because the source applies
`size = MAX(size, 16)` only after the `mem_sbrk` call; so the header does
not encode "exactly that requested byte count". -/
theorem claim5_counterexample_max16 :
    sbrkBytes 2 = 8 ∧
    (do
      let r ← extend_heap hInit 2
      pure (r.1, r.2.brk - hInit.brk, GET r.2 (HDRP 112)) :
      Option (Int × Int × Option Word)) = some (80, 8, some 16) ∧
    (16 : Word) ≠ 8 := by decide

/-- C5 amended: `extend_heap(words)` rounds `words` up to even and requests
exactly that many times `WSIZE = 4` bytes from the region provider,
returning the null block with the heap untouched when the provider refuses;
otherwise it overlays a free-block header and footer encoding
`max(requested bytes, 16)` at the returned address, writes a new epilogue
header immediately after that block, and returns `coalesce` of the new
block.  The arithmetic is `size_t`; the hypothesis keeps the byte count
below `2^32`. -/
theorem claim5_amended_extend_heap (h : Heap) (words : Nat)
    (hsmall : (words + words % 2) * 4 < W32) (hbrk : h.brk ≠ -1) :
    sbrkBytes words = (words + words % 2) * 4 ∧
    ((h.hi : Int) < h.brk + (((words + words % 2) * 4 : Nat) : Int) →
      extend_heap h words = some (0, h)) ∧
    (h.brk + (((words + words % 2) * 4 : Nat) : Int) ≤ h.hi →
      extend_heap h words =
        coalesce
          (PUT (PUT (PUT { h with brk := h.brk + (((words + words % 2) * 4 : Nat) : Int) }
                 (h.brk - 4) (PACK (max ((words + words % 2) * 4) 16) 0))
               (h.brk + ((max ((words + words % 2) * 4) 16 : Nat) : Int) - 8)
               (PACK (max ((words + words % 2) * 4) 16) 0))
             (h.brk + ((max ((words + words % 2) * 4) 16 : Nat) : Int) - 4) (PACK 0 1))
          h.brk) := by
  have hW : (16 : Nat) < W32 := by unfold W32; omega
  have hb : sbrkBytes words = (words + words % 2) * 4 := by
    unfold sbrkBytes
    unfold W32 at hsmall ⊢
    omega
  have hS8 : (max ((words + words % 2) * 4) 16) % 8 = 0 := by omega
  have hSW : (max ((words + words % 2) * 4) 16) < W32 := by omega
  have hpack : PACK (max ((words + words % 2) * 4) 16) 0 = max ((words + words % 2) * 4) 16 :=
    Nat.or_zero _
  refine ⟨hb, ?_, ?_⟩
  · intro hrefuse
    simp only [extend_heap, mem_sbrk, hb]
    rw [if_neg (by omega : ¬ (h.brk + (((words + words % 2) * 4 : Nat) : Int) ≤ h.hi))]
    simp
  · intro haccept
    simp only [extend_heap, mem_sbrk, hb]
    rw [if_pos haccept]
    rw [if_neg hbrk, hpack, FTRP_PUT_hdr _ _ _ hS8 hSW]
    dsimp only
    simp only [bindSome]
    rw [NEXT_PUT2 _ _ _ _ _ (by omega) hS8 hSW]
    simp only [bindSome]

/-- Witness for C5: the amended description evaluated at the initialized
heap with `words = 2`. -/
theorem claim5_amended_extend_heap_witness :
    extend_heap hInit 2 =
      coalesce
        (PUT (PUT (PUT { hInit with brk := hInit.brk + (((2 + 2 % 2) * 4 : Nat) : Int) }
               (hInit.brk - 4) (PACK (max ((2 + 2 % 2) * 4) 16) 0))
             (hInit.brk + ((max ((2 + 2 % 2) * 4) 16 : Nat) : Int) - 8)
             (PACK (max ((2 + 2 % 2) * 4) 16) 0))
           (hInit.brk + ((max ((2 + 2 % 2) * 4) 16 : Nat) : Int) - 4) (PACK 0 1))
        hInit.brk :=
  (claim5_amended_extend_heap hInit 2 (by decide) (by decide)).2.2 (by decide)

/-- C6 counterexample: for `p = 80` on the heap after `mm_init` and
`mm_malloc(16)`, the call `reallocate(p, 2^32 - 1)` — a negative size when
read as a signed int — does not leave `p`'s block valid: because
`size = ALIGN(size)` runs before the sign test and `ALIGN(2^32-1) = 0`, the
zero-size branch frees the block (its header word changes from 25, an
allocated 24-byte block, to 64, a free coalesced 64-byte block) and the
call returns null. -/
theorem claim6_counterexample_negative_frees :
    GET hM16 (HDRP 80) = some 25 ∧ GET_ALLOC 25 = 1 ∧
    (do
      let r ← mm_realloc 100 hM16 80 (W32 - 1)
      pure (r.1, GET r.2 (HDRP 80)) : Option (Int × Option Word)) = some (0, some 64) ∧
    GET_ALLOC 64 = 0 := by decide

/-- C6 amended: with the header word at the argument readable (mm.c reads
it before any test), `reallocate(null, n)` is equivalent to `allocate(n)`
for `n ≤ 2^32 - 16`; `reallocate(p, 0)` frees `p` and returns null;
`reallocate(p, n)` with `n` negative as a signed int returns null leaving
the heap completely unchanged when `n ≤ 2^32 - 8` (i.e. signed `n ≤ -8`),
but for `2^32 - 8 < n < 2^32` (signed `-7 ≤ n ≤ -1`) the aligned size wraps
to 0 and the call frees `p` and returns null. -/
theorem claim6_amended_degenerate_args (fuel : Nat) (h : Heap) :
    (∀ (n : Nat) (w : Word), GET h (0 - 4) = some w → n ≤ W32 - 16 →
      mm_realloc fuel h 0 n = mm_malloc fuel h n) ∧
    (∀ (p : Int) (w : Word), p ≠ 0 → GET h (p - 4) = some w →
      mm_realloc fuel h p 0 = (do
        let h1 ← mm_free h p
        some ((0 : Int), h1))) ∧
    (∀ (p : Int) (w : Word) (n : Nat), p ≠ 0 → GET h (p - 4) = some w →
      2 ^ 31 ≤ n → n ≤ W32 - 8 → mm_realloc fuel h p n = some (0, h)) ∧
    (∀ (p : Int) (w : Word) (n : Nat), p ≠ 0 → GET h (p - 4) = some w →
      W32 - 8 < n → n < W32 →
      mm_realloc fuel h p n = (do
        let h1 ← mm_free h p
        some ((0 : Int), h1))) := by
  refine ⟨?_, ?_, ?_, ?_⟩
  · intro n w hw hn
    have h4 : GET h (-4) = some w := by
      have e : (0 : Int) - 4 = -4 := by norm_num
      rwa [e] at hw
    rw [show mm_realloc fuel h 0 n = mm_malloc fuel h (ALIGN n) by simp [mm_realloc, h4]]
    exact mm_malloc_ALIGN fuel h n hn
  · intro p w hp hw
    have hA : ALIGN 0 = 0 := by decide
    simp [mm_realloc, hw, hp, hA]
  · intro p w n hp hw h31 hn
    have hA : 2 ^ 31 ≤ ALIGN n := by unfold ALIGN W32 at *; omega
    simp only [mm_realloc, hw, bindSome, if_neg hp, if_pos hA]
  · intro p w n hp hw hlo hhi
    have hA : ALIGN n = 0 := by unfold ALIGN W32 at *; omega
    have h31 : ¬ (2 ^ 31 ≤ ALIGN n) := by omega
    simp [mm_realloc, hw, hp, hA, h31]

/-- Witness for C6: the four degenerate-argument behaviours at concrete
heaps (null pointer with `n = 20`; `p = 80` with `n = 0`, with `n = 2^31`
and with `n = 2^32 - 2`). -/
theorem claim6_amended_degenerate_args_witness :
    (mm_realloc 5 h0 0 20 = mm_malloc 5 h0 20) ∧
    (mm_realloc 5 hM16 80 0 = (do
      let h1 ← mm_free hM16 80
      some ((0 : Int), h1))) ∧
    (mm_realloc 5 hM16 80 (2 ^ 31) = some (0, hM16)) ∧
    (mm_realloc 5 hM16 80 (W32 - 2) = (do
      let h1 ← mm_free hM16 80
      some ((0 : Int), h1))) :=
  ⟨(claim6_amended_degenerate_args 5 h0).1 20 0 (by decide) (by decide),
   (claim6_amended_degenerate_args 5 hM16).2.1 80 25 (by decide) (by decide),
   (claim6_amended_degenerate_args 5 hM16).2.2.1 80 25 (2 ^ 31) (by decide) (by decide)
     (by decide) (by decide),
   (claim6_amended_degenerate_args 5 hM16).2.2.2 80 25 (W32 - 2) (by decide) (by decide)
     (by decide) (by decide)⟩

/-- C7: in `mm_realloc`'s fall-back path (pointer non-null, size positive
as a signed int, request neither equal to nor below the current block size,
and the next block unable to absorb the growth), the implementation
allocates a new block with `mm_malloc(required)`, copies exactly
`required = align8(n) + 8` bytes from the old payload (not the minimum with
the old payload size), frees the old block and returns the new pointer; and
on the concrete scenario `p = malloc(16)` (pointer 80, payload words 171,
205, 239, 18) followed by `realloc(p, 4096)`, the result is 104 ≠ 80 and
the first 16 bytes of the new payload equal the bytes written through
`p`. -/
theorem claim7_fallback_copies_required (fuel : Nat) :
    (∀ (h : Heap) (ptr nb : Int) (n : Nat) (w nw : Word),
      ptr ≠ 0 → GET h (ptr - 4) = some w → n ≤ W32 - 16 →
      ¬ (2 ^ 31 ≤ ALIGN n) → ALIGN n ≠ 0 →
      ALIGN n + 8 ≠ GET_SIZE w →
      ¬ (ALIGN n + 8 < GET_SIZE w) →
      NEXT_BLKP h ptr = some nb → GET h (nb - 4) = some nw →
      ¬ (GET_ALLOC nw = 0 ∧ ALIGN n + 8 ≤ (GET_SIZE w + GET_SIZE nw) % W32) →
      mm_realloc fuel h ptr n = (do
        let r ← mm_malloc fuel h (ALIGN n + 8)
        if r.1 = 0 then some ((0 : Int), r.2)
        else do
          let h2 ← memcpyWords r.2 r.1 ptr ((ALIGN n + 8) / 4)
          let h3 ← mm_free h2 ptr
          some (r.1, h3))) ∧
    ((do
      let r ← mm_realloc 100 hUser 80 4096
      pure (r.1, GET r.2 104, GET r.2 108, GET r.2 112, GET r.2 116) :
      Option (Int × Option Word × Option Word × Option Word × Option Word))
      = some (104, some 171, some 205, some 239, some 18)) ∧
    (104 : Int) ≠ 80 := by
  refine ⟨?_, by decide, by decide⟩
  intro h ptr nb n w nw hp hw hn h31 h0 hne hlt hnb hnw hfb
  have hmod : (ALIGN n + 8) % W32 = ALIGN n + 8 := by
    unfold ALIGN W32 at *
    omega
  simp only [mm_realloc, hw, bindSome, if_neg hp, if_neg h31, if_neg h0, hmod,
    if_neg hne, if_neg hlt, hnb, hnw, if_neg hfb, reallocFallback]

/-- Witness for C7: the universal fall-back equation instantiated at the
concrete scenario heap. -/
theorem claim7_fallback_copies_required_witness :
    mm_realloc 100 hUser 80 4096 = (do
      let r ← mm_malloc 100 hUser (ALIGN 4096 + 8)
      if r.1 = 0 then some ((0 : Int), r.2)
      else do
        let h2 ← memcpyWords r.2 r.1 80 ((ALIGN 4096 + 8) / 4)
        let h3 ← mm_free h2 80
        some (r.1, h3)) :=
  (claim7_fallback_copies_required 100).1 hUser 80 104 4096 25 40 (by decide) (by decide)
    (by decide) (by decide) (by decide) (by decide) (by decide) (by decide) (by decide)
    (by decide)

/-- C8 counterexample: on the heap right after `mm_init`, the block 80 is
reachable from the head of free list 5 and both of its physical neighbours
(prologue 72 and epilogue 112) are allocated; the claim predicts the
contiguous-free-blocks test reports failure exactly then, yet `mm_check`
returns 1 with no failure recorded. -/
theorem claim8_counterexample_passes_when_neighbors_allocated :
    readPtr hInit (slotAddr hInit 5) = some 80 ∧
    GET hInit (HDRP 80) = some 32 ∧ GET_ALLOC 32 = 0 ∧
    PREV_BLKP hInit 80 = some 72 ∧ GET hInit (HDRP 72) = some 9 ∧ GET_ALLOC 9 = 1 ∧
    NEXT_BLKP hInit 80 = some 112 ∧ GET hInit (HDRP 112) = some 1 ∧ GET_ALLOC 1 = 1 ∧
    mm_check 100 hInit = some 1 := by decide

/-- C8 amended: the checker's contiguous-free-blocks test clears the check
flag for a free-listed block exactly when either of that block's physical
neighbours in the heap is FREE (not allocated): scanning one genuinely free
block whose successor pointer is null leaves the flag equal to the incoming
flag conjoined with "previous neighbour allocated and next neighbour
allocated". -/
theorem claim8_amended_fails_iff_neighbor_free (f : Nat) (h : Heap) (bp pb nb : Int)
    (cnt : Nat) (chk : Bool) (hw pw nw : Word)
    (hbp : bp ≠ 0)
    (hhw : GET h (bp - 4) = some hw) (hfree : GET_ALLOC hw = 0)
    (hpb : PREV_BLKP h bp = some pb) (hpw : GET h (pb - 4) = some pw)
    (hnb : NEXT_BLKP h bp = some nb) (hnw : GET h (nb - 4) = some nw)
    (hnp : readPtr h (bp + 4) = some 0) :
    checkListLoop (f + 1) h bp cnt chk =
      some (cnt + 1, chk && (decide (GET_ALLOC pw ≠ 0) && decide (GET_ALLOC nw ≠ 0))) := by
  have key : ∀ b : Bool,
      (if GET_ALLOC pw = 0 ∨ GET_ALLOC nw = 0 then false
        else if GET_ALLOC hw ≠ 0 then false else b)
        = (b && (decide (GET_ALLOC pw ≠ 0) && decide (GET_ALLOC nw ≠ 0))) := by
    intro b
    by_cases hp : GET_ALLOC pw = 0 <;> by_cases hn : GET_ALLOC nw = 0 <;> simp [hp, hn, hfree]
  simp [checkListLoop, hbp, hhw, hpb, hnb, hnp, hpw, hnw, checkListLoop_null, key]
  cases chk <;> simp [hfree, Bool.and_comm]

/-- Witness for C8: scanning the single free block 80 of the initialized
heap (both neighbours allocated) keeps the check flag true. -/
theorem claim8_amended_fails_iff_neighbor_free_witness :
    checkListLoop 1 hInit 80 0 true = some (1, true) := by
  have h := claim8_amended_fails_iff_neighbor_free 0 hInit 80 72 112 0 true 32 9 1
    (by decide) (by decide) (by decide) (by decide) (by decide) (by decide) (by decide)
    (by decide)
  simpa using h

/-- C9: `mm_realloc` evaluates `GET_SIZE(HDRP(ptr))` — the read of the word
at `ptr - 4` — before it tests `ptr == NULL`: in the embedding, if the word
at any `ptr - 4` is unreadable the whole call gets stuck (`none`), in
particular at the null pointer where the address is `-4`; and whenever that
word at `-4` is readable, `reallocate(null, n)` reaches the null branch and
returns `allocate(ALIGN n)`. -/
theorem claim9_header_read_before_null_test (fuel : Nat) (h : Heap) (n : Nat) :
    (∀ ptr : Int, GET h (ptr - 4) = none → mm_realloc fuel h ptr n = none) ∧
    (∀ w : Word, GET h (0 - 4) = some w → mm_realloc fuel h 0 n = mm_malloc fuel h (ALIGN n)) := by
  constructor
  · intro ptr hnone
    simp [mm_realloc, hnone]
  · intro w hsome
    have h4 : GET h (-4) = some w := by
      have e : (0 : Int) - 4 = -4 := by norm_num
      rwa [e] at hsome
    simp [mm_realloc, h4]

/-- Witness for C9: on the fully unmapped heap `hNone` the call
`reallocate(null, 5)` is stuck on the header read at `-4`, while on the
fully mapped fresh machine it returns `allocate(ALIGN 5)`. -/
theorem claim9_header_read_before_null_test_witness :
    mm_realloc 1 hNone 0 5 = none ∧ mm_realloc 1 h0 0 5 = mm_malloc 1 h0 (ALIGN 5) :=
  ⟨(claim9_header_read_before_null_test 1 hNone 5).1 0 (by decide),
   (claim9_header_read_before_null_test 1 h0 5).2 0 (by decide)⟩

/-- C10: for every block pointer whose header is readable, the footer
address `FTRP(bp)` equals `HDRP(NEXT_BLKP(bp)) - WSIZE` — both derive from
the same `GET_SIZE(HDRP(bp))` — so the checker's overlap condition
`FTRP(bp) > HDRP(NEXT_BLKP(bp))` is identically false and the
overlapping-blocks diagnostic of `mm_check` is unreachable for any heap
contents. -/
theorem claim10_footer_abuts_next_header (h : Heap) (bp : Int) (w : Word)
    (hhw : GET h (HDRP bp) = some w) :
    FTRP h bp = some (bp + (GET_SIZE w : Int) - 8) ∧
    NEXT_BLKP h bp = some (bp + (GET_SIZE w : Int)) ∧
    bp + (GET_SIZE w : Int) - 8 = HDRP (bp + (GET_SIZE w : Int)) - 4 ∧
    overlapTest h bp = some false := by
  have h2 : GET h (bp - 4) = some w := hhw
  refine ⟨by simp [FTRP, hhw], by simp [NEXT_BLKP, h2], by simp [HDRP]; ring, ?_⟩
  simp [overlapTest, FTRP, NEXT_BLKP, HDRP, h2]

/-- Witness for C10 at the fresh machine and the null block pointer. -/
theorem claim10_footer_abuts_next_header_witness :
    GET h0 (HDRP 0) = some 0 ∧ overlapTest h0 0 = some false :=
  ⟨by decide, (claim10_footer_abuts_next_header h0 0 0 (by decide)).2.2.2⟩
